import Mathlib

/-!
Shallow embedding of the image-analysis core of the rl-chat-app repository:
the analyzers in src/services/image-analysis/analyzers.ts and the
processImage pipeline orchestrator.  Eight-bit channel values are modelled
as Nat, and the JavaScript floating-point arithmetic on ratios and
brightness values is modelled exactly over the rationals.
-/

/-- One RGBA quad of the flat Uint8ClampedArray pixel buffer.  The flat
buffer of length 4 * totalPixels is modelled as a list of quads, matching
the loop in analyzeColors that steps through the array four entries at a
time. -/
structure Pixel where
  r : Nat
  g : Nat
  b : Nat
  a : Nat
deriving DecidableEq

/-- Output record of analyzeColors (interface ColorAnalysis in types.ts). -/
structure ColorAnalysis where
  dominantColors : List String
  darkRatio : ℚ
  lightRatio : ℚ
  brightness : ℚ

/-- Output record of analyzeEdges (interface EdgeAnalysis in types.ts). -/
structure EdgeAnalysis where
  horizontalEdges : Nat
  verticalEdges : Nat
  normalizedEdges : ℚ
  rectangularShapes : Nat

/-- Output record of analyzePatterns (interface PatternAnalysis in types.ts). -/
structure PatternAnalysis where
  regularPatterns : Nat
  totalPixels : Nat

/-- Output record of analyzeContent (interface ContentAnalysis in types.ts). -/
structure ContentAnalysis where
  isUIScreen : Bool
  hasText : Bool
  isErrorScreen : Bool
  isDarkMode : Bool
  isLightMode : Bool
  contentType : String

/-- JavaScript Math.round(c/32)*32 for a channel value c : Nat.  For a
nonnegative argument Math.round x = floor (x + 1/2), and
floor (c/32 + 1/2) = (c + 16) / 32 in natural division. -/
def quantize (c : Nat) : Nat := ((c + 16) / 32) * 32

/-- The quantized color key built in analyzeColors via the template string
rgb(a,b,c) over the three quantized channels. -/
def quantizedColor (r g b : Nat) : String :=
  "rgb(" ++ toString (quantize r) ++ "," ++ toString (quantize g) ++ ","
    ++ toString (quantize b) ++ ")"

/-- colorCounts[quantizedColor] = (colorCounts[quantizedColor] || 0) + 1 on a
JavaScript object: an existing key keeps its insertion position, a new key is
appended at the end, so Object.entries later lists keys in first-seen order. -/
def bumpCount (counts : List (String × Nat)) (key : String) : List (String × Nat) :=
  match counts with
  | [] => [(key, 1)]
  | (k, n) :: rest =>
    if k = key then (k, n + 1) :: rest else (k, n) :: bumpCount rest key

/-- Per-pixel brightness (r + g + b) / 3 used throughout analyzers.ts. -/
def pixelBrightness (p : Pixel) : ℚ := ((p.r : ℚ) + (p.g : ℚ) + (p.b : ℚ)) / 3

/-- Loop state of the scan in analyzeColors. -/
structure ColorState where
  colorCounts : List (String × Nat)
  brightness : ℚ
  darkPixels : Nat
  lightPixels : Nat

/-- One iteration of the pixel loop in analyzeColors: skip the pixel when
a < 128, otherwise bump the quantized-color count, accumulate brightness and
classify the pixel as dark (brightness < 85) and/or light (brightness > 170). -/
def colorStep (s : ColorState) (p : Pixel) : ColorState :=
  if p.a < 128 then s
  else
    { colorCounts := bumpCount s.colorCounts (quantizedColor p.r p.g p.b)
      brightness := s.brightness + pixelBrightness p
      darkPixels := s.darkPixels + (if pixelBrightness p < 85 then 1 else 0)
      lightPixels := s.lightPixels + (if 170 < pixelBrightness p then 1 else 0) }

/-- The whole pixel loop of analyzeColors. -/
def colorScan (data : List Pixel) : ColorState :=
  data.foldl colorStep { colorCounts := [], brightness := 0, darkPixels := 0, lightPixels := 0 }

/-- The JavaScript comparator ([,a],[,b]) => b - a passed to Array.sort:
x may stay before y exactly when y.count ≤ x.count, i.e. descending counts;
Array.sort is stable, as is List.mergeSort. -/
def countDesc (x y : String × Nat) : Bool := decide (y.2 ≤ x.2)

/-- analyzeColors of analyzers.ts.  data is the RGBA buffer grouped into
quads; totalPixels is the separately passed width*height. -/
def analyzeColors (data : List Pixel) (totalPixels : Nat) : ColorAnalysis :=
  let s := colorScan data
  { dominantColors := ((s.colorCounts.mergeSort countDesc).take 3).map Prod.fst
    darkRatio := (s.darkPixels : ℚ) / (totalPixels : ℚ)
    lightRatio := (s.lightPixels : ℚ) / (totalPixels : ℚ)
    brightness := s.brightness / (totalPixels : ℚ) / 255 }

/-- A decoded image as the canvas rendering context exposes it to the
edge and pattern analyzers: dimensions plus random access (x, y) to RGBA
quads, ctx.getImageData(x, y, 1, 1).data. -/
structure Img where
  width : Nat
  height : Nat
  pix : Nat → Nat → Pixel

/-- Mean R/G/B brightness of the pixel at (x, y). -/
def brightnessAt (img : Img) (x y : Nat) : ℚ := pixelBrightness (img.pix x y)

/-- The pairs (x, y) visited by the nested loops
for (y = start; y < height; y++) for (x = start; x < width; x++),
in loop order. -/
def scanPoints (start w h : Nat) : List (Nat × Nat) :=
  (List.range' start (h - start)).flatMap
    (fun y => (List.range' start (w - start)).map (fun x => (x, y)))

/-- horizontalDiff at (x, y): |brightness(x,y) - brightness(x-1,y)|. -/
def horizontalDiff (img : Img) (x y : Nat) : ℚ :=
  |brightnessAt img x y - brightnessAt img (x - 1) y|

/-- verticalDiff at (x, y): |brightness(x,y) - brightness(x,y-1)|. -/
def verticalDiff (img : Img) (x y : Nat) : ℚ :=
  |brightnessAt img x y - brightnessAt img x (y - 1)|

/-- Loop state of analyzeEdges. -/
structure EdgeState where
  horizontalEdges : Nat
  verticalEdges : Nat
  rectangularShapes : Nat

/-- One iteration of the double loop of analyzeEdges at the point (x, y). -/
def edgeStep (img : Img) (s : EdgeState) (p : Nat × Nat) : EdgeState :=
  { horizontalEdges :=
      s.horizontalEdges + (if 50 < horizontalDiff img p.1 p.2 then 1 else 0)
    verticalEdges :=
      s.verticalEdges + (if 50 < verticalDiff img p.1 p.2 then 1 else 0)
    rectangularShapes :=
      s.rectangularShapes +
        (if 50 < horizontalDiff img p.1 p.2 ∧ 50 < verticalDiff img p.1 p.2 then 1 else 0) }

/-- analyzeEdges of analyzers.ts: scan x, y from 1, count threshold-50
brightness jumps against the left and top neighbors, and normalize the edge
total by width*height. -/
def analyzeEdges (img : Img) : EdgeAnalysis :=
  let s := (scanPoints 1 img.width img.height).foldl (edgeStep img)
    { horizontalEdges := 0, verticalEdges := 0, rectangularShapes := 0 }
  { horizontalEdges := s.horizontalEdges
    verticalEdges := s.verticalEdges
    normalizedEdges :=
      ((s.horizontalEdges + s.verticalEdges : Nat) : ℚ) / ((img.width * img.height : Nat) : ℚ)
    rectangularShapes := s.rectangularShapes }

/-- The 3x3 block read by ctx.getImageData(x-3, y-3, 3, 3): row-major points
with offsets 0..2 from the top-left corner (x-3, y-3). -/
def patternBlock (x y : Nat) : List (Nat × Nat) :=
  (List.range 3).flatMap
    (fun dy => (List.range 3).map (fun dx => (x - 3 + dx, y - 3 + dy)))

/-- The isRegular test of analyzePatterns at (x, y): every pixel of the
offset 3x3 block differs from the current pixel by at most 20 in each of
R, G and B.  The early break of the source loop does not change the result. -/
def isRegular (img : Img) (x y : Nat) : Bool :=
  (patternBlock x y).all fun q =>
    decide (((img.pix q.1 q.2).r : Int) - ((img.pix x y).r : Int) ≤ 20 ∧
            ((img.pix x y).r : Int) - ((img.pix q.1 q.2).r : Int) ≤ 20 ∧
            ((img.pix q.1 q.2).g : Int) - ((img.pix x y).g : Int) ≤ 20 ∧
            ((img.pix x y).g : Int) - ((img.pix q.1 q.2).g : Int) ≤ 20 ∧
            ((img.pix q.1 q.2).b : Int) - ((img.pix x y).b : Int) ≤ 20 ∧
            ((img.pix x y).b : Int) - ((img.pix q.1 q.2).b : Int) ≤ 20)

/-- analyzePatterns of analyzers.ts: count the pixels (x, y), x ≥ 3, y ≥ 3,
whose offset 3x3 neighborhood matches, and carry totalPixels through. -/
def analyzePatterns (img : Img) : PatternAnalysis :=
  { regularPatterns :=
      (scanPoints 3 img.width img.height).countP (fun p => isRegular img p.1 p.2)
    totalPixels := img.width * img.height }

/-- JavaScript String.prototype.includes: the needle occurs as a contiguous
substring of the haystack. -/
def includes (s search : String) : Bool :=
  (List.range (s.toList.length + 1)).any
    (fun i => List.isPrefixOf search.toList (s.toList.drop i))

/-- analyzeContent of analyzers.ts: the fixed-threshold content classifier. -/
def analyzeContent (colorAnalysis : ColorAnalysis) (edgeAnalysis : EdgeAnalysis)
    (patternAnalysis : PatternAnalysis) : ContentAnalysis :=
  let totalPixels := patternAnalysis.totalPixels
  let isUIScreen : Bool :=
    decide ((edgeAnalysis.rectangularShapes : ℚ) > (totalPixels : ℚ) * 0.01) &&
    decide ((patternAnalysis.regularPatterns : ℚ) > (totalPixels : ℚ) * 0.1)
  let hasText : Bool :=
    decide ((edgeAnalysis.horizontalEdges : ℚ) > (edgeAnalysis.verticalEdges : ℚ) * 1.5) &&
    decide (edgeAnalysis.normalizedEdges > 0.1)
  let isErrorScreen : Bool :=
    decide (colorAnalysis.darkRatio < 0.2) && decide (colorAnalysis.lightRatio > 0.6) &&
    colorAnalysis.dominantColors.any
      (fun c => includes c "rgb(255,0,0)" || includes c "rgb(255,192,192)")
  let isDarkMode : Bool := decide (colorAnalysis.darkRatio > 0.7)
  let isLightMode : Bool := decide (colorAnalysis.lightRatio > 0.7)
  let contentType : String :=
    if isUIScreen then
      "User Interface" ++
        (if isErrorScreen then " (Error Screen)"
         else if isDarkMode then " (Dark Theme)"
         else if isLightMode then " (Light Theme)"
         else "")
    else if hasText && decide (edgeAnalysis.normalizedEdges > 0.2) then
      "Document or Text Content"
    else if edgeAnalysis.normalizedEdges < 0.05 then
      "Simple Graphic or Icon"
    else
      "Complex Image or Photo"
  { isUIScreen := isUIScreen
    hasText := hasText
    isErrorScreen := isErrorScreen
    isDarkMode := isDarkMode
    isLightMode := isLightMode
    contentType := contentType }

/-- The flat RGBA buffer ctx.getImageData(0, 0, width, height).data of a
decoded image, grouped into quads: row-major pixel order. -/
def imgData (img : Img) : List Pixel :=
  (List.range img.height).flatMap
    (fun y => (List.range img.width).map (fun x => img.pix x y))

/-- The argument of processImage: a File as the browser hands it over, with
its declared MIME type string and declared byte size. -/
structure ImgFile where
  type : String
  size : Nat

/-- SUPPORTED_FORMATS of processImage. -/
def SUPPORTED_FORMATS : List String := ["image/jpeg", "image/png", "image/webp", "image/gif"]

/-- MAX_IMAGE_SIZE of processImage: 10 * 1024 * 1024 bytes. -/
def MAX_IMAGE_SIZE : Nat := 10 * 1024 * 1024

/-- The fixed-shape failure text built in the catch block of processImage,
around the underlying error message. -/
def imageAnalysisError (reason : String) : String :=
  "Image Analysis Error:\n- Status: Unable to process image\n- Reason: "
    ++ reason
    ++ "\n- Recommendation: Please ensure the image is valid and try again"
    ++ "\n- Note: Continuing with text-only analysis"
    ++ "\n- Supported Formats: JPEG, PNG, WebP, GIF\n- Maximum Size: 10MB"

/-- The message of the unsupported-format error thrown by processImage:
the supported formats with their leading image/ stripped, comma-joined. -/
def unsupportedFormatMsg : String :=
  "Unsupported image format. Supported formats: "
    ++ String.intercalate ", " (SUPPORTED_FORMATS.map (fun f => (f.splitOn "/").getD 1 ""))

/-- The message of the size error thrown by processImage. -/
def sizeExceededMsg : String :=
  "Image size exceeds maximum limit of " ++ toString (MAX_IMAGE_SIZE / (1024 * 1024)) ++ "MB"

/-- processImage of the pipeline orchestrator.  The FileReader decode and
analyzeImageLocally run only after both validations pass; their combined
outcome (the resolved report text, or the message of the rejected promise)
enters as the decodeResult parameter, so a validation failure never looks at
it.  Every failure path runs through the catch block, which returns (never
rethrows) the fixed-shape imageAnalysisError text. -/
def processImage (image : ImgFile) (decodeResult : Except String String) : String :=
  if ¬ (image.type ∈ SUPPORTED_FORMATS) then imageAnalysisError unsupportedFormatMsg
  else if MAX_IMAGE_SIZE < image.size then imageAnalysisError sizeExceededMsg
  else
    match decodeResult with
    | Except.ok report => report
    | Except.error msg => imageAnalysisError msg

/-- The all-black opaque test image of the spec: every pixel RGB = (0,0,0)
with alpha 255. -/
def blackImg (w h : Nat) : Img :=
  { width := w, height := h, pix := fun _ _ => { r := 0, g := 0, b := 0, a := 255 } }

theorem quantize_255 : quantize 255 = 256 := by decide

theorem quantizedColor_pure_red : quantizedColor 255 0 0 = "rgb(256,0,0)" := by decide

/-! ## Helper lemmas about the scan ranges and the edge loop -/

theorem length_scanPoints (s w h : Nat) :
    (scanPoints s w h).length = (h - s) * (w - s) := by
  simp [scanPoints, List.flatMap, Function.comp_def, List.map_map]

theorem foldl_edgeStep_horizontal (img : Img) (l : List (Nat × Nat)) (s : EdgeState) :
    (l.foldl (edgeStep img) s).horizontalEdges
      = s.horizontalEdges + l.countP (fun p => decide (50 < horizontalDiff img p.1 p.2)) := by
  induction l generalizing s with
  | nil => simp
  | cons p l ih =>
    simp only [List.foldl_cons, List.countP_cons, ih, edgeStep, decide_eq_true_eq]
    omega

theorem foldl_edgeStep_vertical (img : Img) (l : List (Nat × Nat)) (s : EdgeState) :
    (l.foldl (edgeStep img) s).verticalEdges
      = s.verticalEdges + l.countP (fun p => decide (50 < verticalDiff img p.1 p.2)) := by
  induction l generalizing s with
  | nil => simp
  | cons p l ih =>
    simp only [List.foldl_cons, List.countP_cons, ih, edgeStep, decide_eq_true_eq]
    omega

theorem foldl_edgeStep_rect (img : Img) (l : List (Nat × Nat)) (s : EdgeState) :
    (l.foldl (edgeStep img) s).rectangularShapes
      = s.rectangularShapes
        + l.countP (fun p =>
            decide (50 < horizontalDiff img p.1 p.2 ∧ 50 < verticalDiff img p.1 p.2)) := by
  induction l generalizing s with
  | nil => simp
  | cons p l ih =>
    simp only [List.foldl_cons, List.countP_cons, ih, edgeStep, decide_eq_true_eq]
    omega

/-- C10: a rectangular-shape increment happens only at pixels where both the
horizontal and the vertical counter are incremented, so rectangularShapes is
bounded by each of horizontalEdges and verticalEdges. -/
theorem rectangularShapes_le_edges (img : Img) :
    (analyzeEdges img).rectangularShapes ≤ (analyzeEdges img).horizontalEdges ∧
    (analyzeEdges img).rectangularShapes ≤ (analyzeEdges img).verticalEdges := by
  constructor
  · simp only [analyzeEdges, foldl_edgeStep_horizontal, foldl_edgeStep_rect, Nat.zero_add]
    apply List.countP_mono_left
    intro p _ hp
    simp only [decide_eq_true_eq] at *
    exact hp.1
  · simp only [analyzeEdges, foldl_edgeStep_vertical, foldl_edgeStep_rect, Nat.zero_add]
    apply List.countP_mono_left
    intro p _ hp
    simp only [decide_eq_true_eq] at *
    exact hp.2

/-- C2: analyzeContent chooses contentType by a top-to-bottom first-match
rule: a UI screen gets the label User Interface with a suffix of precedence
error > dark > light; otherwise text with normalizedEdges > 0.2 gives
Document or Text Content, normalizedEdges < 0.05 gives Simple Graphic or
Icon, and anything else Complex Image or Photo.  When isUIScreen and
isErrorScreen hold together the label carries (Error Screen) and no
dark/light suffix. -/
theorem analyzeContent_contentType_spec (ca : ColorAnalysis) (ea : EdgeAnalysis)
    (pa : PatternAnalysis) :
    ((analyzeContent ca ea pa).contentType =
      (if (analyzeContent ca ea pa).isUIScreen then
        "User Interface" ++
          (if (analyzeContent ca ea pa).isErrorScreen then " (Error Screen)"
           else if (analyzeContent ca ea pa).isDarkMode then " (Dark Theme)"
           else if (analyzeContent ca ea pa).isLightMode then " (Light Theme)"
           else "")
       else if (analyzeContent ca ea pa).hasText = true ∧ (0.2 : ℚ) < ea.normalizedEdges then
        "Document or Text Content"
       else if ea.normalizedEdges < 0.05 then "Simple Graphic or Icon"
       else "Complex Image or Photo")) ∧
    ((analyzeContent ca ea pa).isUIScreen = true →
     (analyzeContent ca ea pa).isErrorScreen = true →
      (analyzeContent ca ea pa).contentType = "User Interface (Error Screen)" ∧
      includes (analyzeContent ca ea pa).contentType "(Error Screen)" = true ∧
      includes (analyzeContent ca ea pa).contentType "Dark Theme" = false ∧
      includes (analyzeContent ca ea pa).contentType "Light Theme" = false) := by
  constructor
  · simp only [analyzeContent, gt_iff_lt, Bool.and_eq_true, decide_eq_true_eq]
  · intro h1 h2
    simp only [analyzeContent] at h1 h2 ⊢
    rw [if_pos h1, if_pos h2]
    exact ⟨rfl, by decide, by decide, by decide⟩

/-- C2 witness: a concrete input satisfying isUIScreen and isErrorScreen
simultaneously indeed reports User Interface (Error Screen). -/
theorem analyzeContent_contentType_spec_witness :
    (analyzeContent { dominantColors := ["rgb(255,0,0)"], darkRatio := 0, lightRatio := 1,
                      brightness := 1 }
       { horizontalEdges := 0, verticalEdges := 0, normalizedEdges := 0, rectangularShapes := 1 }
       { regularPatterns := 1, totalPixels := 1 }).contentType
      = "User Interface (Error Screen)" :=
  ((analyzeContent_contentType_spec _ _ _).2
    (by simp only [analyzeContent, Bool.and_eq_true]
        exact ⟨decide_eq_true (by norm_num), decide_eq_true (by norm_num)⟩)
    (by simp only [analyzeContent, Bool.and_eq_true]
        exact ⟨⟨decide_eq_true (by norm_num), decide_eq_true (by norm_num)⟩, by decide⟩)).1

/-! ## C1: the isErrorScreen rule -/

/-- C1 (amended): analyzeContent sets isErrorScreen to true exactly when
darkRatio < 0.2 and lightRatio > 0.6 and some dominant color contains the
literal substring rgb(255,0,0) or rgb(255,192,192).  Those literals are not
themselves quantized color keys: the quantizer rounds 255 up to 256. -/
theorem analyzeContent_isErrorScreen_spec (ca : ColorAnalysis) (ea : EdgeAnalysis)
    (pa : PatternAnalysis) :
    (analyzeContent ca ea pa).isErrorScreen = true ↔
      (ca.darkRatio < 0.2 ∧ 0.6 < ca.lightRatio ∧
        ∃ c ∈ ca.dominantColors,
          includes c "rgb(255,0,0)" = true ∨ includes c "rgb(255,192,192)" = true) := by
  simp only [analyzeContent, Bool.and_eq_true, decide_eq_true_eq, List.any_eq_true,
    Bool.or_eq_true, gt_iff_lt]
  aesop

/-- The counterexample input to C1: a ColorAnalysis carrying the quantized
pure-red key among its dominant colors, with darkRatio 0 and lightRatio 1. -/
def caRedQuantized : ColorAnalysis :=
  { dominantColors := [quantizedColor 255 0 0], darkRatio := 0, lightRatio := 1, brightness := 1 }

/-- C1 counterexample: a ColorAnalysis whose dominant colors hold the
quantized pure-red key quantizedColor 255 0 0 = rgb(256,0,0), with
darkRatio = 0 < 0.2 and lightRatio = 1 > 0.6, satisfies every condition of
the claim, yet analyzeContent reports isErrorScreen = false: the code's
substring test looks for rgb(255,0,0) and rgb(255,192,192), and 255 is not a
multiple of 32, so no key the quantizer produces ever matches. -/
theorem analyzeContent_isErrorScreen_cex :
    caRedQuantized.darkRatio < 0.2 ∧
    (0.6 : ℚ) < caRedQuantized.lightRatio ∧
    quantizedColor 255 0 0 ∈ caRedQuantized.dominantColors ∧
    (analyzeContent caRedQuantized
      { horizontalEdges := 0, verticalEdges := 0, normalizedEdges := 0, rectangularShapes := 0 }
      { regularPatterns := 0, totalPixels := 0 }).isErrorScreen = false := by
  refine ⟨by norm_num [caRedQuantized], by norm_num [caRedQuantized], by simp [caRedQuantized], ?_⟩
  have hc : (([quantizedColor 255 0 0].any
      fun c => includes c "rgb(255,0,0)" || includes c "rgb(255,192,192)")) = false := by decide
  simp [analyzeContent, caRedQuantized, hc]

/-! ## C3: the pipeline orchestrator -/

theorem includes_of_prefix_drop (s sub : String) (i : Nat) (hi : i ≤ s.toList.length)
    (h : sub.toList <+: s.toList.drop i) : includes s sub = true := by
  unfold includes
  rw [List.any_eq_true]
  exact ⟨i, List.mem_range.mpr (by omega), List.isPrefixOf_iff_prefix.mpr h⟩

theorem includes_append_right (X Y n : String) (h : includes X n = true) :
    includes (X ++ Y) n = true := by
  unfold includes at h
  rw [List.any_eq_true] at h
  obtain ⟨i, hi, hp⟩ := h
  rw [List.mem_range] at hi
  rw [List.isPrefixOf_iff_prefix] at hp
  simp only [String.toList] at hi hp
  have hi' : i ≤ X.data.length := by omega
  refine includes_of_prefix_drop _ _ i ?_ ?_
  · simp only [String.toList, String.data_append, List.length_append]
    omega
  · simp only [String.toList, String.data_append]
    rw [List.drop_append_of_le_length hi']
    exact hp.trans (List.prefix_append _ _)

theorem includes_append_left (X Y n : String) (h : includes Y n = true) :
    includes (X ++ Y) n = true := by
  unfold includes at h
  rw [List.any_eq_true] at h
  obtain ⟨i, hi, hp⟩ := h
  rw [List.mem_range] at hi
  rw [List.isPrefixOf_iff_prefix] at hp
  refine includes_of_prefix_drop _ _ (X.toList.length + i) ?_ ?_
  · simp only [String.toList, String.data_append, List.length_append]
    simp only [String.toList] at hi
    omega
  · simp only [String.toList, String.data_append]
    rw [← List.drop_drop, List.drop_left]
    exact hp

theorem includes_self_append (N Y : String) : includes (N ++ Y) N = true := by
  refine includes_of_prefix_drop _ _ 0 (Nat.zero_le _) ?_
  simp only [String.toList, String.data_append, List.drop_zero]
  exact List.prefix_append _ _

theorem includes_refl (s : String) : includes s s = true := by
  refine includes_of_prefix_drop _ _ 0 (Nat.zero_le _) ?_
  simp only [List.drop_zero]
  exact List.prefix_refl _

/-- C3: processImage rejects a declared format outside JPEG/PNG/WebP/GIF and
a declared size above 10 MiB without consulting the decode outcome (the
result is the same for every decodeResult); a decode or analysis failure
past both validations returns the imageAnalysisError text built around that
failure's own message; every failure path returns one of the fixed-shape
imageAnalysisError texts, whose fields Status, Reason (the underlying
message), Recommendation, text-only Note, Supported Formats and Maximum Size
all occur in it. -/
theorem processImage_spec :
    (∀ (f : ImgFile) (d d' : Except String String), f.type ∉ SUPPORTED_FORMATS →
        processImage f d = processImage f d' ∧
        processImage f d = imageAnalysisError unsupportedFormatMsg) ∧
    (∀ (f : ImgFile) (d d' : Except String String),
        f.type ∈ SUPPORTED_FORMATS → MAX_IMAGE_SIZE < f.size →
        processImage f d = processImage f d' ∧
        processImage f d = imageAnalysisError sizeExceededMsg) ∧
    (∀ (f : ImgFile) (msg : String),
        f.type ∈ SUPPORTED_FORMATS → ¬ MAX_IMAGE_SIZE < f.size →
        processImage f (Except.error msg) = imageAnalysisError msg) ∧
    (∀ (f : ImgFile) (msg : String),
        processImage f (Except.error msg) = imageAnalysisError unsupportedFormatMsg ∨
        processImage f (Except.error msg) = imageAnalysisError sizeExceededMsg ∨
        processImage f (Except.error msg) = imageAnalysisError msg) ∧
    (∀ reason : String,
        includes (imageAnalysisError reason) "- Status: Unable to process image" = true ∧
        includes (imageAnalysisError reason) ("- Reason: " ++ reason) = true ∧
        includes (imageAnalysisError reason)
          "- Recommendation: Please ensure the image is valid and try again" = true ∧
        includes (imageAnalysisError reason) "- Note: Continuing with text-only analysis" = true ∧
        includes (imageAnalysisError reason) "- Supported Formats: JPEG, PNG, WebP, GIF" = true ∧
        includes (imageAnalysisError reason) "- Maximum Size: 10MB" = true) := by
  refine ⟨?_, ?_, ?_, ?_, ?_⟩
  · intro f d d' h
    constructor <;> simp [processImage, h]
  · intro f d d' h1 h2
    constructor <;> simp [processImage, h1, h2]
  · intro f msg h1 h2
    simp [processImage, h1, h2]
  · intro f msg
    by_cases h1 : f.type ∈ SUPPORTED_FORMATS
    · by_cases h2 : MAX_IMAGE_SIZE < f.size
      · exact Or.inr (Or.inl (by simp [processImage, h1, h2]))
      · exact Or.inr (Or.inr (by simp [processImage, h1, h2]))
    · exact Or.inl (by simp [processImage, h1])
  · intro reason
    simp only [imageAnalysisError]
    refine ⟨?_, ?_, ?_, ?_, ?_, ?_⟩
    · exact includes_append_right _ _ _ (includes_append_right _ _ _
        (includes_append_right _ _ _ (includes_append_right _ _ _ (by decide))))
    · have hH : "Image Analysis Error:\n- Status: Unable to process image\n- Reason: "
          = "Image Analysis Error:\n- Status: Unable to process image\n" ++ "- Reason: " := by
        decide
      rw [hH, String.append_assoc "Image Analysis Error:\n- Status: Unable to process image\n"
        "- Reason: " reason]
      exact includes_append_right _ _ _ (includes_append_right _ _ _
        (includes_append_right _ _ _
          (includes_append_left _ _ _ (includes_refl ("- Reason: " ++ reason)))))
    · exact includes_append_right _ _ _ (includes_append_right _ _ _
        (includes_append_left _ _ _ (by decide)))
    · exact includes_append_right _ _ _ (includes_append_left _ _ _ (by decide))
    · exact includes_append_left _ _ _ (by decide)
    · exact includes_append_left _ _ _ (by decide)

/-- C3 witness: a bmp file is refused with the unsupported-format report, an
oversized png with the size report, a valid png whose decode rejects gets the
rejection's own message as the Reason, and the fallback text carries the
fixed Status field, whatever decode would have returned. -/
theorem processImage_spec_witness :
    processImage { type := "image/bmp", size := 0 } (Except.ok "report")
      = imageAnalysisError unsupportedFormatMsg ∧
    processImage { type := "image/png", size := 10485761 } (Except.error "Failed to load image")
      = imageAnalysisError sizeExceededMsg ∧
    processImage { type := "image/png", size := 100 } (Except.error "Failed to load image")
      = imageAnalysisError "Failed to load image" ∧
    includes (imageAnalysisError "Failed to load image") "- Status: Unable to process image"
      = true :=
  ⟨(processImage_spec.1 { type := "image/bmp", size := 0 } (Except.ok "report")
      (Except.ok "report") (by decide)).2,
   (processImage_spec.2.1 { type := "image/png", size := 10485761 }
      (Except.error "Failed to load image") (Except.error "Failed to load image")
      (by decide) (by decide)).2,
   processImage_spec.2.2.1 { type := "image/png", size := 100 } "Failed to load image"
      (by decide) (by decide),
   (processImage_spec.2.2.2.2 "Failed to load image").1⟩

/-! ## Helper lemmas about the color scan -/

theorem foldl_colorStep_darkPixels (data : List Pixel) (s : ColorState) :
    (data.foldl colorStep s).darkPixels
      = s.darkPixels + data.countP (fun p => decide (¬ p.a < 128 ∧ pixelBrightness p < 85)) := by
  induction data generalizing s with
  | nil => simp
  | cons p l ih =>
    rw [List.foldl_cons, ih, List.countP_cons]
    by_cases h : p.a < 128
    · have h1 : colorStep s p = s := by simp [colorStep, h]
      rw [h1]
      simp [h]
    · by_cases hb : pixelBrightness p < 85
      · have h1 : (colorStep s p).darkPixels = s.darkPixels + 1 := by simp [colorStep, h, hb]
        rw [h1]
        simp only [h, hb, not_false_iff, and_true, true_and, decide_eq_true_eq]
        simp
        omega
      · have h1 : (colorStep s p).darkPixels = s.darkPixels := by simp [colorStep, h, hb]
        rw [h1]
        simp [h, hb]

theorem foldl_colorStep_lightPixels (data : List Pixel) (s : ColorState) :
    (data.foldl colorStep s).lightPixels
      = s.lightPixels + data.countP (fun p => decide (¬ p.a < 128 ∧ 170 < pixelBrightness p)) := by
  induction data generalizing s with
  | nil => simp
  | cons p l ih =>
    rw [List.foldl_cons, ih, List.countP_cons]
    by_cases h : p.a < 128
    · have h1 : colorStep s p = s := by simp [colorStep, h]
      rw [h1]
      simp [h]
    · by_cases hb : 170 < pixelBrightness p
      · have h1 : (colorStep s p).lightPixels = s.lightPixels + 1 := by simp [colorStep, h, hb]
        rw [h1]
        simp only [h, hb, not_false_iff, and_true, true_and, decide_eq_true_eq]
        simp
        omega
      · have h1 : (colorStep s p).lightPixels = s.lightPixels := by simp [colorStep, h, hb]
        rw [h1]
        simp [h, hb]

theorem foldl_colorStep_brightness (data : List Pixel) (s : ColorState) :
    (data.foldl colorStep s).brightness
      = s.brightness + ((data.filter (fun p => decide (¬ p.a < 128))).map pixelBrightness).sum := by
  induction data generalizing s with
  | nil => simp
  | cons p l ih =>
    rw [List.foldl_cons, ih, List.filter_cons]
    by_cases h : p.a < 128
    · have h1 : colorStep s p = s := by simp [colorStep, h]
      rw [h1]
      simp [h]
    · have h1 : (colorStep s p).brightness = s.brightness + pixelBrightness p := by
        simp [colorStep, h]
      rw [h1]
      simp [h]
      ring

theorem foldl_colorStep_transparent (data : List Pixel) (s : ColorState)
    (h : ∀ p ∈ data, p.a = 0) : data.foldl colorStep s = s := by
  induction data generalizing s with
  | nil => rfl
  | cons p l ih =>
    rw [List.foldl_cons]
    have hp : colorStep s p = s := by
      have ha := h p (List.mem_cons_self p l)
      simp [colorStep, ha]
    rw [hp]
    exact ih s (fun q hq => h q (List.mem_cons_of_mem p hq))

theorem countP_add_countP_disjoint_le {α : Type} (l : List α) (p q : α → Bool)
    (h : ∀ a ∈ l, ¬(p a = true ∧ q a = true)) :
    l.countP p + l.countP q ≤ l.length := by
  induction l with
  | nil => simp
  | cons a l ih =>
    rw [List.countP_cons, List.countP_cons, List.length_cons]
    have ha := h a (List.mem_cons_self a l)
    have hl := ih (fun b hb => h b (List.mem_cons_of_mem a hb))
    by_cases h1 : p a = true
    · by_cases h2 : q a = true
      · exact absurd ⟨h1, h2⟩ ha
      · simp [h1, h2]
        omega
    · by_cases h2 : q a = true <;> simp [h1, h2] <;> omega

theorem pixelBrightness_nonneg (p : Pixel) : 0 ≤ pixelBrightness p := by
  unfold pixelBrightness
  positivity

theorem pixelBrightness_le_255 (p : Pixel) (hr : p.r ≤ 255) (hg : p.g ≤ 255) (hb : p.b ≤ 255) :
    pixelBrightness p ≤ 255 := by
  unfold pixelBrightness
  rw [div_le_iff₀ (by norm_num : (0 : ℚ) < 3)]
  have h1 : (p.r : ℚ) ≤ 255 := by exact_mod_cast hr
  have h2 : (p.g : ℚ) ≤ 255 := by exact_mod_cast hg
  have h3 : (p.b : ℚ) ≤ 255 := by exact_mod_cast hb
  linarith

/-- C6: for a fully transparent buffer (alpha = 0 everywhere) and a positive
total pixel count, every pixel is skipped and analyzeColors returns
darkRatio = 0, lightRatio = 0 and brightness = 0: the ratios divide the zero
counters by the full image pixel count. -/
theorem transparent_analyzeColors (data : List Pixel) (totalPixels : Nat)
    (ha : ∀ p ∈ data, p.a = 0) (_htp : 0 < totalPixels) :
    (analyzeColors data totalPixels).darkRatio = 0 ∧
    (analyzeColors data totalPixels).lightRatio = 0 ∧
    (analyzeColors data totalPixels).brightness = 0 := by
  have h : colorScan data
      = { colorCounts := [], brightness := 0, darkPixels := 0, lightPixels := 0 } :=
    foldl_colorStep_transparent data _ ha
  simp [analyzeColors, h]

/-- C6 witness: a single fully transparent pixel with totalPixels = 1. -/
theorem transparent_analyzeColors_witness :
    (analyzeColors [{ r := 10, g := 20, b := 30, a := 0 }] 1).darkRatio = 0 ∧
    (analyzeColors [{ r := 10, g := 20, b := 30, a := 0 }] 1).lightRatio = 0 ∧
    (analyzeColors [{ r := 10, g := 20, b := 30, a := 0 }] 1).brightness = 0 :=
  transparent_analyzeColors [{ r := 10, g := 20, b := 30, a := 0 }] 1 (by decide) (by decide)

/-- C7: over a well-formed buffer (one quad per pixel, channels within 0..255,
positive pixel count) the color ratios and brightness lie in [0, 1], the
edge and pattern counters are nonnegative, and analyzePatterns carries
totalPixels = width * height through unchanged. -/
theorem analyzer_range_invariants (data : List Pixel) (totalPixels : Nat) (img : Img)
    (hlen : data.length = totalPixels) (htp : 0 < totalPixels)
    (hch : ∀ p ∈ data, p.r ≤ 255 ∧ p.g ≤ 255 ∧ p.b ≤ 255) :
    (0 ≤ (analyzeColors data totalPixels).darkRatio ∧
      (analyzeColors data totalPixels).darkRatio ≤ 1) ∧
    (0 ≤ (analyzeColors data totalPixels).lightRatio ∧
      (analyzeColors data totalPixels).lightRatio ≤ 1) ∧
    (0 ≤ (analyzeColors data totalPixels).brightness ∧
      (analyzeColors data totalPixels).brightness ≤ 1) ∧
    0 ≤ (analyzeEdges img).horizontalEdges ∧ 0 ≤ (analyzeEdges img).verticalEdges ∧
    0 ≤ (analyzeEdges img).rectangularShapes ∧ 0 ≤ (analyzePatterns img).regularPatterns ∧
    (analyzePatterns img).totalPixels = img.width * img.height := by
  have htpq : (0 : ℚ) < (totalPixels : ℚ) := by exact_mod_cast htp
  have hdark : (colorScan data).darkPixels ≤ totalPixels := by
    rw [colorScan, foldl_colorStep_darkPixels]
    simp only [Nat.zero_add]
    exact hlen ▸ List.countP_le_length _
  have hlight : (colorScan data).lightPixels ≤ totalPixels := by
    rw [colorScan, foldl_colorStep_lightPixels]
    simp only [Nat.zero_add]
    exact hlen ▸ List.countP_le_length _
  have hbright0 : 0 ≤ (colorScan data).brightness := by
    rw [colorScan, foldl_colorStep_brightness]
    simp only [zero_add]
    refine List.sum_nonneg ?_
    intro x hx
    obtain ⟨p, _, rfl⟩ := List.mem_map.mp hx
    exact pixelBrightness_nonneg p
  have hbright1 : (colorScan data).brightness ≤ 255 * (totalPixels : ℚ) := by
    rw [colorScan, foldl_colorStep_brightness]
    simp only [zero_add]
    have hlen2 : ((data.filter (fun p => decide (¬ p.a < 128))).map pixelBrightness).length
        ≤ totalPixels := by
      rw [List.length_map]
      exact hlen ▸ List.length_filter_le _ _
    refine le_trans (List.sum_le_card_nsmul _ 255 ?_) ?_
    · intro x hx
      obtain ⟨p, hp, rfl⟩ := List.mem_map.mp hx
      obtain ⟨hr, hg, hb⟩ := hch p (List.mem_of_mem_filter hp)
      exact pixelBrightness_le_255 p hr hg hb
    · rw [nsmul_eq_mul]
      have : (((data.filter (fun p => decide (¬ p.a < 128))).map pixelBrightness).length : ℚ)
          ≤ (totalPixels : ℚ) := by exact_mod_cast hlen2
      nlinarith
  refine ⟨⟨?_, ?_⟩, ⟨?_, ?_⟩, ⟨?_, ?_⟩, Nat.zero_le _, Nat.zero_le _,
    Nat.zero_le _, Nat.zero_le _, rfl⟩
  · simp only [analyzeColors]
    positivity
  · simp only [analyzeColors]
    rw [div_le_one htpq]
    exact_mod_cast hdark
  · simp only [analyzeColors]
    positivity
  · simp only [analyzeColors]
    rw [div_le_one htpq]
    exact_mod_cast hlight
  · simp only [analyzeColors]
    positivity
  · simp only [analyzeColors]
    rw [div_div]
    rw [div_le_one (by positivity)]
    nlinarith

/-- C9: dark and light pixel counts classify disjoint brightness ranges
(below 85 and above 170), so over a well-formed buffer
darkRatio + lightRatio ≤ 1, and analyzeContent never reports isDarkMode
(darkRatio > 0.7) and isLightMode (lightRatio > 0.7) together. -/
theorem darkRatio_add_lightRatio_le_one (data : List Pixel) (totalPixels : Nat)
    (hlen : data.length = totalPixels) :
    (analyzeColors data totalPixels).darkRatio + (analyzeColors data totalPixels).lightRatio
      ≤ 1 ∧
    ∀ (ea : EdgeAnalysis) (pa : PatternAnalysis),
      ¬ ((analyzeContent (analyzeColors data totalPixels) ea pa).isDarkMode = true ∧
         (analyzeContent (analyzeColors data totalPixels) ea pa).isLightMode = true) := by
  have hsum : (colorScan data).darkPixels + (colorScan data).lightPixels ≤ totalPixels := by
    rw [colorScan, foldl_colorStep_darkPixels, foldl_colorStep_lightPixels]
    simp only [Nat.zero_add]
    rw [← hlen]
    refine countP_add_countP_disjoint_le data _ _ ?_
    intro p _ hboth
    obtain ⟨h1, h2⟩ := hboth
    rw [decide_eq_true_eq] at h1 h2
    have := h1.2
    have := h2.2
    linarith
  have hratio : (analyzeColors data totalPixels).darkRatio
      + (analyzeColors data totalPixels).lightRatio ≤ 1 := by
    simp only [analyzeColors]
    rw [div_add_div_same]
    rcases Nat.eq_zero_or_pos totalPixels with h0 | hpos
    · subst h0
      simp
    · have htpq : (0 : ℚ) < (totalPixels : ℚ) := by exact_mod_cast hpos
      rw [div_le_one htpq]
      exact_mod_cast hsum
  refine ⟨hratio, ?_⟩
  intro ea pa hboth
  obtain ⟨h1, h2⟩ := hboth
  simp only [analyzeContent, decide_eq_true_eq, gt_iff_lt] at h1 h2
  linarith

/-- C9 witness: a single black opaque pixel with totalPixels = 1. -/
theorem darkRatio_add_lightRatio_le_one_witness :
    (analyzeColors [{ r := 0, g := 0, b := 0, a := 255 }] 1).darkRatio
      + (analyzeColors [{ r := 0, g := 0, b := 0, a := 255 }] 1).lightRatio ≤ 1 :=
  (darkRatio_add_lightRatio_le_one [{ r := 0, g := 0, b := 0, a := 255 }] 1 (by decide)).1

/-- C7 witness: the invariants at a one-pixel white buffer and a 1x1 image. -/
theorem analyzer_range_invariants_witness :
    (0 ≤ (analyzeColors [{ r := 255, g := 255, b := 255, a := 255 }] 1).darkRatio ∧
      (analyzeColors [{ r := 255, g := 255, b := 255, a := 255 }] 1).darkRatio ≤ 1) ∧
    (0 ≤ (analyzeColors [{ r := 255, g := 255, b := 255, a := 255 }] 1).lightRatio ∧
      (analyzeColors [{ r := 255, g := 255, b := 255, a := 255 }] 1).lightRatio ≤ 1) ∧
    (0 ≤ (analyzeColors [{ r := 255, g := 255, b := 255, a := 255 }] 1).brightness ∧
      (analyzeColors [{ r := 255, g := 255, b := 255, a := 255 }] 1).brightness ≤ 1) ∧
    0 ≤ (analyzeEdges (blackImg 1 1)).horizontalEdges ∧
    0 ≤ (analyzeEdges (blackImg 1 1)).verticalEdges ∧
    0 ≤ (analyzeEdges (blackImg 1 1)).rectangularShapes ∧
    0 ≤ (analyzePatterns (blackImg 1 1)).regularPatterns ∧
    (analyzePatterns (blackImg 1 1)).totalPixels = (blackImg 1 1).width * (blackImg 1 1).height :=
  analyzer_range_invariants [{ r := 255, g := 255, b := 255, a := 255 }] 1 (blackImg 1 1)
    (by decide) (by decide) (by decide)

/-! ## C5: the all-black opaque image -/

theorem length_imgData (img : Img) : (imgData img).length = img.height * img.width := by
  simp [imgData, List.flatMap, Function.comp_def, List.map_map]

theorem mem_imgData_black (w h : Nat) (p : Pixel) (hp : p ∈ imgData (blackImg w h)) :
    p = { r := 0, g := 0, b := 0, a := 255 } := by
  simp only [imgData, blackImg, List.mem_flatMap, List.mem_map] at hp
  obtain ⟨y, -, x, -, rfl⟩ := hp
  rfl

theorem brightnessAt_black (w h x y : Nat) : brightnessAt (blackImg w h) x y = 0 := by
  simp [brightnessAt, blackImg, pixelBrightness]

/-- C5: an all-black opaque image of dimensions at least 3 yields
darkRatio = 1, lightRatio = 0, brightness = 0, no edges and no rectangular
shapes, and regularPatterns = (width - 3) * (height - 3). -/
theorem blackImage_analysis (w h : Nat) (hw : 3 ≤ w) (hh : 3 ≤ h) :
    (analyzeColors (imgData (blackImg w h)) (w * h)).darkRatio = 1 ∧
    (analyzeColors (imgData (blackImg w h)) (w * h)).lightRatio = 0 ∧
    (analyzeColors (imgData (blackImg w h)) (w * h)).brightness = 0 ∧
    (analyzeEdges (blackImg w h)).horizontalEdges = 0 ∧
    (analyzeEdges (blackImg w h)).verticalEdges = 0 ∧
    (analyzeEdges (blackImg w h)).rectangularShapes = 0 ∧
    (analyzePatterns (blackImg w h)).regularPatterns = (w - 3) * (h - 3) := by
  have hwh : 0 < w * h := Nat.mul_pos (by omega) (by omega)
  have hlen : (imgData (blackImg w h)).length = w * h := by
    rw [length_imgData]
    exact Nat.mul_comm _ _
  have hdark : (colorScan (imgData (blackImg w h))).darkPixels = w * h := by
    rw [colorScan, foldl_colorStep_darkPixels]
    simp only [Nat.zero_add]
    rw [List.countP_eq_length.mpr, hlen]
    intro p hp
    rw [mem_imgData_black w h p hp]
    rw [decide_eq_true_eq]
    constructor
    · decide
    · norm_num [pixelBrightness]
  have hlight : (colorScan (imgData (blackImg w h))).lightPixels = 0 := by
    rw [colorScan, foldl_colorStep_lightPixels]
    simp only [Nat.zero_add]
    rw [List.countP_eq_zero.mpr]
    intro p hp
    rw [mem_imgData_black w h p hp]
    rw [decide_eq_true_eq]
    rintro ⟨-, habs⟩
    norm_num [pixelBrightness] at habs
  have hbr : (colorScan (imgData (blackImg w h))).brightness = 0 := by
    rw [colorScan, foldl_colorStep_brightness]
    simp only [zero_add]
    refine List.sum_eq_zero ?_
    intro x hx
    obtain ⟨p, hp, rfl⟩ := List.mem_map.mp hx
    rw [mem_imgData_black w h p (List.mem_of_mem_filter hp)]
    norm_num [pixelBrightness]
  have hhd : ∀ p : Nat × Nat, ¬ (50 < horizontalDiff (blackImg w h) p.1 p.2) := by
    intro p
    simp [horizontalDiff, brightnessAt_black]
  have hvd : ∀ p : Nat × Nat, ¬ (50 < verticalDiff (blackImg w h) p.1 p.2) := by
    intro p
    simp [verticalDiff, brightnessAt_black]
  have hreg : ∀ p : Nat × Nat, isRegular (blackImg w h) p.1 p.2 = true := by
    intro p
    simp only [isRegular, List.all_eq_true]
    intro q _
    simp [blackImg]
  refine ⟨?_, ?_, ?_, ?_, ?_, ?_, ?_⟩
  · simp only [analyzeColors]
    rw [hdark, div_self]
    exact_mod_cast Nat.pos_iff_ne_zero.mp hwh
  · simp only [analyzeColors]
    rw [hlight]
    simp
  · simp only [analyzeColors]
    rw [hbr]
    simp
  · simp only [analyzeEdges, foldl_edgeStep_horizontal, Nat.zero_add]
    rw [List.countP_eq_zero.mpr]
    intro p _
    rw [decide_eq_true_eq]
    exact hhd p
  · simp only [analyzeEdges, foldl_edgeStep_vertical, Nat.zero_add]
    rw [List.countP_eq_zero.mpr]
    intro p _
    rw [decide_eq_true_eq]
    exact hvd p
  · simp only [analyzeEdges, foldl_edgeStep_rect, Nat.zero_add]
    rw [List.countP_eq_zero.mpr]
    intro p _
    rw [decide_eq_true_eq]
    rintro ⟨habs, -⟩
    exact hhd p habs
  · simp only [analyzePatterns]
    rw [List.countP_eq_length.mpr (fun p _ => hreg p), length_scanPoints]
    exact Nat.mul_comm _ _

/-- C5 witness: the 4 x 4 all-black image. -/
theorem blackImage_analysis_witness :
    (analyzeColors (imgData (blackImg 4 4)) (4 * 4)).darkRatio = 1 ∧
    (analyzeColors (imgData (blackImg 4 4)) (4 * 4)).lightRatio = 0 ∧
    (analyzeColors (imgData (blackImg 4 4)) (4 * 4)).brightness = 0 ∧
    (analyzeEdges (blackImg 4 4)).horizontalEdges = 0 ∧
    (analyzeEdges (blackImg 4 4)).verticalEdges = 0 ∧
    (analyzeEdges (blackImg 4 4)).rectangularShapes = 0 ∧
    (analyzePatterns (blackImg 4 4)).regularPatterns = (4 - 3) * (4 - 3) :=
  blackImage_analysis 4 4 (by decide) (by decide)

/-! ## C8: dominant colors -/

/-- The quantized color keys of the opaque (alpha at least 128) pixels, in
scan order, one entry per counted pixel. -/
def opaqueKeys (data : List Pixel) : List String :=
  (data.filter (fun p => decide (¬ p.a < 128))).map (fun p => quantizedColor p.r p.g p.b)

/-- First-seen (encounter) order of a key list: every key once, at the
position of its first occurrence.  This is the order Object.entries reports
for the colorCounts object. -/
def insertionOrder (keys : List String) : List String :=
  keys.foldl (fun acc k => if k ∈ acc then acc else acc ++ [k]) []

/-- Association-list lookup of a key's count, 0 when the key is absent. -/
def lookupCount (counts : List (String × Nat)) (key : String) : Nat :=
  match counts with
  | [] => 0
  | (k, n) :: rest => if k = key then n else lookupCount rest key

theorem bumpCount_keys (cs : List (String × Nat)) (k : String) :
    (bumpCount cs k).map Prod.fst
      = if k ∈ cs.map Prod.fst then cs.map Prod.fst else cs.map Prod.fst ++ [k] := by
  induction cs with
  | nil => simp [bumpCount]
  | cons e rest ih =>
    obtain ⟨k0, n0⟩ := e
    simp only [bumpCount]
    by_cases h : k0 = k
    · subst h
      simp
    · rw [if_neg h]
      simp only [List.map_cons, ih, List.mem_cons]
      by_cases hm : k ∈ rest.map Prod.fst
      · simp [hm]
      · have hk : ¬(k = k0 ∨ k ∈ rest.map Prod.fst) := by
          rintro (rfl | hmem)
          · exact h rfl
          · exact hm hmem
        have hk2 : ¬ k = k0 := fun hh => h hh.symm
        simp [hm, hk, hk2]

theorem bumpCount_lookup (cs : List (String × Nat)) (k k' : String) :
    lookupCount (bumpCount cs k) k'
      = lookupCount cs k' + (if k' = k then 1 else 0) := by
  induction cs with
  | nil =>
    by_cases h : k' = k
    · subst h
      simp [bumpCount, lookupCount]
    · have h2 : ¬ k = k' := fun hh => h hh.symm
      simp [bumpCount, lookupCount, h, h2]
  | cons e rest ih =>
    obtain ⟨k0, n0⟩ := e
    simp only [bumpCount]
    by_cases h : k0 = k
    · subst h
      by_cases h2 : k0 = k'
      · subst h2
        simp [lookupCount]
      · have h3 : ¬ k' = k0 := fun hh => h2 hh.symm
        simp [lookupCount, h2, h3]
    · rw [if_neg h]
      by_cases h2 : k0 = k'
      · subst h2
        simp [lookupCount, h]
      · simp [lookupCount, h2, ih]

theorem foldl_colorStep_colorCounts (data : List Pixel) (s : ColorState) :
    (data.foldl colorStep s).colorCounts
      = (opaqueKeys data).foldl bumpCount s.colorCounts := by
  induction data generalizing s with
  | nil => rfl
  | cons p l ih =>
    rw [List.foldl_cons]
    by_cases h : p.a < 128
    · have h1 : colorStep s p = s := by simp [colorStep, h]
      have h2 : opaqueKeys (p :: l) = opaqueKeys l := by
        simp [opaqueKeys, List.filter_cons, h]
      rw [h1, ih, h2]
    · have h1 : (colorStep s p).colorCounts
          = bumpCount s.colorCounts (quantizedColor p.r p.g p.b) := by
        simp [colorStep, h]
      have h3 : 128 ≤ p.a := Nat.not_lt.mp h
      have h2 : opaqueKeys (p :: l)
          = quantizedColor p.r p.g p.b :: opaqueKeys l := by
        simp [opaqueKeys, List.filter_cons, h3]
      rw [ih, h1, h2, List.foldl_cons]

theorem foldl_bump_keys (keys : List String) (cs : List (String × Nat)) :
    (keys.foldl bumpCount cs).map Prod.fst
      = keys.foldl (fun acc k => if k ∈ acc then acc else acc ++ [k]) (cs.map Prod.fst) := by
  induction keys generalizing cs with
  | nil => rfl
  | cons k rest ih =>
    rw [List.foldl_cons, List.foldl_cons, ih, bumpCount_keys]

theorem foldl_bump_lookup (keys : List String) (cs : List (String × Nat)) (k : String) :
    lookupCount (keys.foldl bumpCount cs) k = lookupCount cs k + keys.count k := by
  induction keys generalizing cs with
  | nil => simp
  | cons k0 rest ih =>
    rw [List.foldl_cons, ih, bumpCount_lookup, List.count_cons]
    by_cases h : k = k0
    · subst h
      simp
      omega
    · have h2 : ¬ k0 = k := fun hh => h hh.symm
      simp [h, h2]

theorem countDesc_trans (a b c : String × Nat) :
    countDesc a b → countDesc b c → countDesc a c := by
  simp only [countDesc, decide_eq_true_eq]
  omega

theorem countDesc_total (a b : String × Nat) : countDesc a b || countDesc b a := by
  simp only [countDesc, Bool.or_eq_true, decide_eq_true_eq]
  omega

theorem mergeSort_countDesc_filter (L : List (String × Nat)) (c : Nat) :
    (L.mergeSort countDesc).filter (fun e => decide (e.2 = c))
      = L.filter (fun e => decide (e.2 = c)) := by
  have hperm : List.Perm ((L.mergeSort countDesc).filter (fun e => decide (e.2 = c)))
      (L.filter (fun e => decide (e.2 = c))) :=
    (List.mergeSort_perm L countDesc).filter _
  have hpair : (L.filter (fun e => decide (e.2 = c))).Pairwise (fun a b => countDesc a b) := by
    refine List.pairwise_of_forall_mem_list ?_
    intro a ha b hb
    have ha2 := (List.mem_filter.mp ha).2
    have hb2 := (List.mem_filter.mp hb).2
    rw [decide_eq_true_eq] at ha2 hb2
    simp only [countDesc, decide_eq_true_eq]
    omega
  have hsub : List.Sublist (L.filter (fun e => decide (e.2 = c))) (L.mergeSort countDesc) :=
    List.sublist_mergeSort countDesc_trans countDesc_total hpair (List.filter_sublist L)
  have hsub2 : List.Sublist (L.filter (fun e => decide (e.2 = c)))
      ((L.mergeSort countDesc).filter (fun e => decide (e.2 = c))) := by
    have h1 := hsub.filter (fun e => decide (e.2 = c))
    rwa [List.filter_eq_self.mpr (fun a ha => (List.mem_filter.mp ha).2)] at h1
  exact (hsub2.eq_of_length hperm.length_eq.symm).symm

/-- C8: the colorCounts entries pair each quantized key of an opaque pixel
with its occurrence count, in first-seen (encounter) order; dominantColors is
the key column of that entry list sorted by descending count with a stable
sort — a permutation, pairwise descending, and each equal-count slice of the
sorted list equal to the same slice of the entry list, so ties keep
first-seen order — truncated to at most 3 entries. -/
theorem analyzeColors_dominantColors_spec (data : List Pixel) (totalPixels : Nat) :
    (analyzeColors data totalPixels).dominantColors
      = ((((colorScan data).colorCounts).mergeSort countDesc).take 3).map Prod.fst ∧
    (analyzeColors data totalPixels).dominantColors.length ≤ 3 ∧
    ((colorScan data).colorCounts).map Prod.fst = insertionOrder (opaqueKeys data) ∧
    (∀ k : String,
      lookupCount ((colorScan data).colorCounts) k = (opaqueKeys data).count k) ∧
    List.Perm (((colorScan data).colorCounts).mergeSort countDesc)
      ((colorScan data).colorCounts) ∧
    (((colorScan data).colorCounts).mergeSort countDesc).Pairwise
      (fun a b : String × Nat => b.2 ≤ a.2) ∧
    (∀ c : Nat,
      (((colorScan data).colorCounts).mergeSort countDesc).filter (fun e => decide (e.2 = c))
        = ((colorScan data).colorCounts).filter (fun e => decide (e.2 = c))) := by
  refine ⟨rfl, ?_, ?_, ?_, List.mergeSort_perm _ countDesc, ?_, mergeSort_countDesc_filter _⟩
  · simp only [analyzeColors, List.length_map, List.length_take]
    omega
  · rw [colorScan, foldl_colorStep_colorCounts]
    exact foldl_bump_keys (opaqueKeys data) []
  · intro k
    rw [colorScan, foldl_colorStep_colorCounts]
    have h := foldl_bump_lookup (opaqueKeys data) [] k
    simpa [lookupCount] using h
  · refine (List.sorted_mergeSort countDesc_trans countDesc_total _).imp ?_
    intro a b hab
    simpa [countDesc] using hab

/-! ## The error-screen test never fires on analyzer-produced colors -/

set_option maxRecDepth 4000 in
theorem quantized_channel_strings_no_match : ∀ i < 9, ∀ j < 9, ∀ l < 9,
    (includes ("rgb(" ++ toString (i * 32) ++ "," ++ toString (j * 32) ++ ","
        ++ toString (l * 32) ++ ")") "rgb(255,0,0)" = false ∧
     includes ("rgb(" ++ toString (i * 32) ++ "," ++ toString (j * 32) ++ ","
        ++ toString (l * 32) ++ ")") "rgb(255,192,192)" = false) := by decide

theorem quantizedColor_no_red_match (r g b : Nat) (hr : r ≤ 255) (hg : g ≤ 255)
    (hb : b ≤ 255) :
    includes (quantizedColor r g b) "rgb(255,0,0)" = false ∧
    includes (quantizedColor r g b) "rgb(255,192,192)" = false := by
  have h1 : (r + 16) / 32 < 9 := by omega
  have h2 : (g + 16) / 32 < 9 := by omega
  have h3 : (b + 16) / 32 < 9 := by omega
  have h := quantized_channel_strings_no_match _ h1 _ h2 _ h3
  simpa [quantizedColor, quantize] using h

theorem foldl_insert_mem (keys : List String) (acc : List String) (k : String)
    (h : k ∈ keys.foldl (fun acc k => if k ∈ acc then acc else acc ++ [k]) acc) :
    k ∈ acc ∨ k ∈ keys := by
  induction keys generalizing acc with
  | nil => exact Or.inl h
  | cons k0 rest ih =>
    rw [List.foldl_cons] at h
    rcases ih _ h with h1 | h1
    · by_cases hmem : k0 ∈ acc
      · rw [if_pos hmem] at h1
        exact Or.inl h1
      · rw [if_neg hmem] at h1
        rcases List.mem_append.mp h1 with h2 | h2
        · exact Or.inl h2
        · have h3 := List.mem_singleton.mp h2
          subst h3
          exact Or.inr (List.mem_cons_self _ _)
    · exact Or.inr (List.mem_cons_of_mem _ h1)

/-- Consequence of the quantizer rounding 255 to 256: on every output of
analyzeColors over 8-bit channel data, the substring test of the error-screen
rule fails for all dominant colors, so analyzeContent always reports
isErrorScreen = false on analyzer-produced colors. -/
theorem analyzeColors_isErrorScreen_false (data : List Pixel) (totalPixels : Nat)
    (hch : ∀ p ∈ data, p.r ≤ 255 ∧ p.g ≤ 255 ∧ p.b ≤ 255)
    (ea : EdgeAnalysis) (pa : PatternAnalysis) :
    (analyzeContent (analyzeColors data totalPixels) ea pa).isErrorScreen = false := by
  have hkeys : ∀ k ∈ (analyzeColors data totalPixels).dominantColors,
      k ∈ opaqueKeys data := by
    intro k hk
    simp only [analyzeColors] at hk
    obtain ⟨e, he, rfl⟩ := List.mem_map.mp hk
    have he2 : e ∈ (colorScan data).colorCounts.mergeSort countDesc :=
      List.mem_of_mem_take he
    have he3 : e ∈ (colorScan data).colorCounts := List.mem_mergeSort.mp he2
    have hmap : e.1 ∈ ((colorScan data).colorCounts).map Prod.fst :=
      List.mem_map.mpr ⟨e, he3, rfl⟩
    rw [colorScan, foldl_colorStep_colorCounts, foldl_bump_keys] at hmap
    rcases foldl_insert_mem _ _ _ hmap with habs | hgood
    · simp at habs
    · exact hgood
  have hany : ((analyzeColors data totalPixels).dominantColors.any
      fun c => includes c "rgb(255,0,0)" || includes c "rgb(255,192,192)") = false := by
    rw [List.any_eq_false]
    intro k hk
    obtain ⟨p, hp, rfl⟩ := List.mem_map.mp (hkeys k hk)
    obtain ⟨hr, hg, hb⟩ := hch p (List.mem_of_mem_filter hp)
    obtain ⟨h1, h2⟩ := quantizedColor_no_red_match p.r p.g p.b hr hg hb
    simp [h1, h2]
  simp only [analyzeContent]
  rw [hany, Bool.and_false]
